import Mathlib

/-!
Verification development for `src/ImageProcessor.py`.

The Python module is shallowly embedded:

* Python values produced by `json.loads` become the inductive type `JVal`;
  JSON numbers are modelled as exact rationals (`ℚ`).  The claims under
  study only involve numbers whose IEEE-double arithmetic is exact
  (small integers and multiples of 0.5), so rational arithmetic agrees
  with Python float/int arithmetic on every input that appears here.
* `json.loads` becomes `parseJson`, a fuel-indexed recursive-descent
  parser for RFC-8259 JSON (strict control-character rule, the
  `{0 | [1-9][0-9]*}` integer grammar, string escapes including
  `\uXXXX` with surrogate pairs).  Python's non-standard `NaN` /
  `Infinity` literals and float rounding are outside the fragment the
  claims exercise and are not modelled.
* Python dicts keep insertion order and assignment replaces in place,
  so objects are association lists updated with `insertKey`.
* A function that may raise an uncaught Python exception returns
  `Except String _`; the `.error` payload names the exception class.
-/

/-- Python values produced by `json.loads` (dicts are insertion-ordered
association lists, numbers are exact rationals). -/
inductive JVal : Type where
  | jnull : JVal
  | jbool : Bool → JVal
  | jnum : ℚ → JVal
  | jstr : String → JVal
  | jarr : List JVal → JVal
  | jobj : List (String × JVal) → JVal

/-- Python `dict.get k` — first binding of `k` in the association list. -/
def dictGet (fields : List (String × JVal)) (k : String) : Option JVal :=
  (fields.find? (fun p => p.1 == k)).map (fun p => p.2)

/-- Python `dict[k] = v`: replace the binding in place if `k` is already
present (keeping its position), otherwise append it. -/
def insertKey : List (String × JVal) → String → JVal → List (String × JVal)
  | [], k, v => [(k, v)]
  | (k0, v0) :: rest, k, v =>
      if k0 == k then (k0, v) :: rest else (k0, v0) :: insertKey rest k v

/-- JSON whitespace accepted between tokens (`json.loads`): space, tab,
newline, carriage return. -/
def isJsonWs (c : Char) : Bool :=
  c == ' ' || c == '\t' || c == '\n' || c == '\r'

/-- Drop leading JSON whitespace. -/
def skipWs : List Char → List Char
  | [] => []
  | c :: rest => if isJsonWs c then skipWs rest else c :: rest

/-- Value of a hexadecimal digit. -/
def hexDigit (c : Char) : Option ℕ :=
  if '0' ≤ c ∧ c ≤ '9' then some (c.toNat - '0'.toNat)
  else if 'a' ≤ c ∧ c ≤ 'f' then some (c.toNat - 'a'.toNat + 10)
  else if 'A' ≤ c ∧ c ≤ 'F' then some (c.toNat - 'A'.toNat + 10)
  else none

/-- Turn a `\uXXXX` code unit (possibly a surrogate) into a `Char`.
Lean strings cannot hold lone surrogates; those map to U+FFFD.  The
claims never exercise `\u` escapes. -/
def codeUnitChar (n : ℕ) : Char :=
  if n < 0xd800 ∨ (0xe000 ≤ n ∧ n < 0x110000) then
    Char.ofNat n
  else
    Char.ofNat 0xfffd

/-- Parse the body of a JSON string after the opening quote, strict mode
(`json.loads` rejects raw control characters).  Returns the decoded
string and the input after the closing quote.  Fuel decreases at every
step; `cs.length + 1` is always enough. -/
def parseStrChars : ℕ → List Char → List Char → Option (String × List Char)
  | 0, _, _ => none
  | _ + 1, [], _ => none
  | fuel + 1, c :: rest, acc =>
      if c = '"' then some (String.mk acc.reverse, rest)
      else if c = '\\' then
        match rest with
        | [] => none
        | e :: rest2 =>
            if e = '"' then parseStrChars fuel rest2 ('"' :: acc)
            else if e = '\\' then parseStrChars fuel rest2 ('\\' :: acc)
            else if e = '/' then parseStrChars fuel rest2 ('/' :: acc)
            else if e = 'b' then parseStrChars fuel rest2 ('\x08' :: acc)
            else if e = 'f' then parseStrChars fuel rest2 ('\x0c' :: acc)
            else if e = 'n' then parseStrChars fuel rest2 ('\n' :: acc)
            else if e = 'r' then parseStrChars fuel rest2 ('\r' :: acc)
            else if e = 't' then parseStrChars fuel rest2 ('\t' :: acc)
            else if e = 'u' then
              match rest2 with
              | h1 :: h2 :: h3 :: h4 :: rest3 =>
                  match hexDigit h1, hexDigit h2, hexDigit h3, hexDigit h4 with
                  | some a, some b, some c2, some d =>
                      let code := ((a * 16 + b) * 16 + c2) * 16 + d
                      if 0xd800 ≤ code ∧ code ≤ 0xdbff then
                        -- high surrogate: try to combine with a following \uDC00-\uDFFF
                        match rest3 with
                        | '\\' :: 'u' :: g1 :: g2 :: g3 :: g4 :: rest4 =>
                            match hexDigit g1, hexDigit g2, hexDigit g3, hexDigit g4 with
                            | some a2, some b2, some c3, some d2 =>
                                let lo := ((a2 * 16 + b2) * 16 + c3) * 16 + d2
                                if 0xdc00 ≤ lo ∧ lo ≤ 0xdfff then
                                  let combined := 0x10000 + (code - 0xd800) * 0x400 + (lo - 0xdc00)
                                  parseStrChars fuel rest4 (codeUnitChar combined :: acc)
                                else
                                  parseStrChars fuel rest3 (codeUnitChar code :: acc)
                            | _, _, _, _ => parseStrChars fuel rest3 (codeUnitChar code :: acc)
                        | _ => parseStrChars fuel rest3 (codeUnitChar code :: acc)
                      else
                        parseStrChars fuel rest3 (codeUnitChar code :: acc)
                  | _, _, _, _ => none
              | _ => none
            else none
      else if c.toNat < 0x20 then none
      else parseStrChars fuel rest (c :: acc)

/-- Take the maximal leading run of decimal digits. -/
def takeDigits : List Char → List Char × List Char
  | [] => ([], [])
  | c :: rest =>
      if c.isDigit then
        let (ds, r) := takeDigits rest
        (c :: ds, r)
      else ([], c :: rest)

/-- Decimal digits to a natural number (most significant first). -/
def digitsToNat : List Char → ℕ → ℕ
  | [], acc => acc
  | c :: rest, acc => digitsToNat rest (acc * 10 + (c.toNat - '0'.toNat))

/-- Parse a JSON number (`-? (0 | [1-9][0-9]*) frac? exp?`) into an
exact rational, returning the remaining input.  A redundant leading
zero ends the integer part (as in `json.loads`, where `"01"` parses the
`0` and leaves `"1"` to fail as a stray token). -/
def parseNumber (cs : List Char) : Option (ℚ × List Char) :=
  let (neg, cs1) :=
    match cs with
    | '-' :: r => (true, r)
    | _ => (false, cs)
  match cs1 with
  | [] => none
  | c :: rest =>
      if ¬ c.isDigit then none
      else
        let (ds, cs2) := if c = '0' then ([c], rest) else takeDigits cs1
        let intPart : ℚ := (digitsToNat ds 0 : ℕ)
        let fracStep : Option (ℚ × List Char) :=
          match cs2 with
          | '.' :: r =>
              match takeDigits r with
              | ([], _) => none
              | (fds, cs3) =>
                  some (intPart + (digitsToNat fds 0 : ℕ) / ((10 : ℚ) ^ fds.length), cs3)
          | _ => some (intPart, cs2)
        match fracStep with
        | none => none
        | some (base, cs3) =>
            let expStep : Option (ℚ × List Char) :=
              match cs3 with
              | e :: r =>
                  if e = 'e' ∨ e = 'E' then
                    let (eneg, r1) :=
                      match r with
                      | '-' :: r2 => (true, r2)
                      | '+' :: r2 => (false, r2)
                      | _ => (false, r)
                    match takeDigits r1 with
                    | ([], _) => none
                    | (eds, cs4) =>
                        let ex : ℤ :=
                          if eneg then -(digitsToNat eds 0 : ℤ) else (digitsToNat eds 0 : ℤ)
                        some (base * (10 : ℚ) ^ ex, cs4)
                  else some (base, cs3)
              | [] => some (base, cs3)
            match expStep with
            | none => none
            | some (q, cs4) => some (if neg then -q else q, cs4)

mutual

/-- Parse one JSON value after optional whitespace, returning the value
and the remaining input.  Fuel decreases at every (mutual) call;
`parseJson` supplies enough for any input. -/
def parseVal : ℕ → List Char → Option (JVal × List Char)
  | 0, _ => none
  | fuel + 1, cs =>
      match skipWs cs with
      | 'n' :: 'u' :: 'l' :: 'l' :: r => some (.jnull, r)
      | 't' :: 'r' :: 'u' :: 'e' :: r => some (.jbool true, r)
      | 'f' :: 'a' :: 'l' :: 's' :: 'e' :: r => some (.jbool false, r)
      | '"' :: r =>
          match parseStrChars (r.length + 1) r [] with
          | some (s, r2) => some (.jstr s, r2)
          | none => none
      | '[' :: r =>
          match skipWs r with
          | ']' :: r2 => some (.jarr [], r2)
          | r2 => parseArrRest fuel r2 []
      | '\x7b' :: r =>
          match skipWs r with
          | '\x7d' :: r2 => some (.jobj [], r2)
          | r2 => parseObjRest fuel r2 []
      | s =>
          match parseNumber s with
          | some (q, r) => some (.jnum q, r)
          | none => none

/-- Parse the elements of a non-empty JSON array (input positioned at
the first element). -/
def parseArrRest : ℕ → List Char → List JVal → Option (JVal × List Char)
  | 0, _, _ => none
  | fuel + 1, cs, acc =>
      match parseVal fuel cs with
      | none => none
      | some (v, r) =>
          match skipWs r with
          | ',' :: r2 => parseArrRest fuel r2 (acc ++ [v])
          | ']' :: r2 => some (.jarr (acc ++ [v]), r2)
          | _ => none

/-- Parse the members of a non-empty JSON object (input positioned at
the first key).  Duplicate keys overwrite in place as Python dicts do. -/
def parseObjRest : ℕ → List Char → List (String × JVal) → Option (JVal × List Char)
  | 0, _, _ => none
  | fuel + 1, cs, acc =>
      match cs with
      | '"' :: r =>
          match parseStrChars (r.length + 1) r [] with
          | none => none
          | some (k, r2) =>
              match skipWs r2 with
              | ':' :: r3 =>
                  match parseVal fuel r3 with
                  | none => none
                  | some (v, r4) =>
                      match skipWs r4 with
                      | ',' :: r5 => parseObjRest fuel (skipWs r5) (insertKey acc k v)
                      | '\x7d' :: r5 => some (.jobj (insertKey acc k v), r5)
                      | _ => none
              | _ => none
      | _ => none

end

/-- Python `json.loads`: parse one JSON value and require only
whitespace after it.  The fuel bound is generous: each unit of fuel is
consumed only alongside progress through the input. -/
def parseJson (s : String) : Option JVal :=
  match parseVal (2 * s.length + 8) s.data with
  | some (v, rest) => if skipWs rest = [] then some v else none
  | none => none

/-- The one-key error dicts built by `handle_response`. -/
def errorObj (msg : String) : JVal := .jobj [("error", .jstr msg)]

/-- `ImageProcessor.handle_response` (src/ImageProcessor.py:76-96).
The HTTP response is its status code and body text (`response.json()`
parses the body, `response.text` is the body).  Return value `.ok v` is
the Python return value; `.error e` is an uncaught exception of class
`e`.  Only `json.JSONDecodeError` is caught, so `.get` on a parsed
body that is neither a dict nor a str (None, bool, number, list)
raises `AttributeError`. -/
def handle_response (status_code : ℕ) (body : String) : Except String JVal :=
  if status_code = 200 then
    match parseJson body with
    | none => .ok (errorObj ("Respuesta JSON no válida"))
    | some response_json =>
        match response_json with
        | .jstr s =>
            match parseJson s with
            | some inner => .ok inner
            | none => .ok (errorObj ("Respuesta JSON no válida (anidada como texto)"))
        | .jobj fields => .ok ((dictGet fields ("response")).getD (.jobj fields))
        | _ => .error ("AttributeError")
  else
    .ok (.jobj [("error", .jnum status_code), ("details", .jstr body)])

example : parseJson ("\x7b\"response\": 4\x7d") = some (.jobj [("response", .jnum 4)]) := rfl
example : parseJson ("not json") = none := rfl
example : parseJson ("[1]") = some (.jarr [.jnum 1]) := rfl
example : handle_response 200 "\x7b\"response\": 4\x7d" = .ok (.jnum 4) := rfl

/-- The request payload built by `ImageProcessor.send_request`
(src/ImageProcessor.py:59-66), as the JSON object that is serialized
with `json.dumps` and posted.  `encoded_image` is the base64 string the
image preparer returned. -/
def build_payload (model prompt : String) (stream : Bool) (encoded_image : String) : JVal :=
  .jobj
    [ ("model", .jstr model),
      ("prompt", .jstr prompt),
      ("stream", .jbool stream),
      ("format", .jstr ("json")),
      ("images", .jarr [.jstr encoded_image]),
      ("verbose", .jbool false) ]

/-- Numeric view of a Python value for arithmetic: ints/floats are
`jnum`, and bools count as 0/1 exactly as in Python.  Other operand
shapes make `quantity * price_unit` (or the later `total_general +=`)
raise `TypeError`. -/
def toNum : JVal → Option ℚ
  | .jnum q => some q
  | .jbool b => some (if b then 1 else 0)
  | _ => none

/-- One iteration of the loop body of `calculate_totals`
(src/ImageProcessor.py:148-150): `product["price_total"] =
product["quantity"] * product["price_unit"]`.  Returns the mutated
product and the computed total; a non-dict product or a missing key or
non-numeric operands raise (`TypeError` / `KeyError`). -/
def calc_item (product : JVal) : Except String (JVal × ℚ) :=
  match product with
  | .jobj fs =>
      match dictGet fs ("quantity") with
      | none => .error ("KeyError")
      | some q =>
          match dictGet fs ("price_unit") with
          | none => .error ("KeyError")
          | some p =>
              match toNum q, toNum p with
              | some a, some b => .ok (.jobj (insertKey fs ("price_total") (.jnum (a * b))), a * b)
              | _, _ => .error ("TypeError")
  | _ => .error ("TypeError")

/-- The `for product in products` loop of `calculate_totals`, threading
`total_general` (which starts at 0). -/
def run_items : List JVal → ℚ → Except String (List JVal × ℚ)
  | [], acc => .ok ([], acc)
  | p :: rest, acc =>
      match calc_item p with
      | .error e => .error e
      | .ok (p2, t) =>
          match run_items rest (acc + t) with
          | .error e => .error e
          | .ok (rest2, total) => .ok (p2 :: rest2, total)

/-- `calculate_totals` (src/ImageProcessor.py:138-154).  Python does
`key = list(json_data.keys())[0]; products = json_data[key]`: looking
up the first key of a dict returns its first value, so we destructure
directly.  A non-dict argument raises `AttributeError` at `.keys()`, an
empty dict raises `IndexError` at `[0]`.  Iterating a non-empty dict or
string yields str elements whose item assignment raises `TypeError`;
non-iterable products raise `TypeError` at the `for`.  The result is
the mutated `products` value together with `total_general`. -/
def calculate_totals (json_data : JVal) : Except String (JVal × ℚ) :=
  match json_data with
  | .jobj [] => .error ("IndexError")
  | .jobj ((_, products) :: _) =>
      match products with
      | .jarr ps =>
          match run_items ps 0 with
          | .error e => .error e
          | .ok (ps2, total) => .ok (.jarr ps2, total)
      | .jobj [] => .ok (products, 0)
      | .jobj (_ :: _) => .error ("TypeError")
      | .jstr s => if s.isEmpty then .ok (products, 0) else .error ("TypeError")
      | _ => .error ("TypeError")
  | _ => .error ("AttributeError")

/-- `True` when the value is a dict carrying the given key. -/
def hasKey (v : JVal) (k : String) : Bool :=
  match v with
  | .jobj fs => (dictGet fs k).isSome
  | _ => false

/-- Pixel dimensions of a PIL image. -/
structure PilImage where
  width : ℕ
  height : ℕ
deriving DecidableEq, Repr

/-- Pillow's `round_aspect` helper inside `Image.thumbnail`:
`max(min(math.floor(number), math.ceil(number), key=key), 1)` —
whichever of floor/ceil minimises `key` (floor on ties), but at least 1. -/
def round_aspect (number : ℚ) (key : ℤ → ℚ) : ℤ :=
  max (if key ⌊number⌋ ≤ key ⌈number⌉ then ⌊number⌋ else ⌈number⌉) 1

/-- Dimension behaviour of `PIL.Image.thumbnail((maxW, maxH), LANCZOS)`
as called at src/ImageProcessor.py:31, modelled from Pillow's
`preserve_aspect_ratio` with exact rational arithmetic in place of
floats (`aspect = width / height`; `x / y >= aspect` chooses which side
is clamped; the other side becomes `round_aspect` of the exact
proportional size).  Resampling only affects pixel contents, not
dimensions, and is not modelled. -/
def thumbnail (maxW maxH : ℕ) (img : PilImage) : PilImage :=
  if (maxW : ℤ) ≥ img.width ∧ (maxH : ℤ) ≥ img.height then img
  else if ((maxW : ℚ) / maxH ≥ (img.width : ℚ) / img.height) then
    ⟨(round_aspect ((maxH : ℚ) * ((img.width : ℚ) / img.height))
        (fun n => |(img.width : ℚ) / img.height - (n : ℚ) / (maxH : ℚ)|)).toNat,
      maxH⟩
  else
    ⟨maxW,
      (round_aspect ((maxW : ℚ) / ((img.width : ℚ) / img.height))
        (fun n => if n = 0 then 0 else |(img.width : ℚ) / img.height - (maxW : ℚ) / (n : ℚ)|)).toNat⟩

/-- The default bounding box `self.max_pixels` (src/ImageProcessor.py:22). -/
def max_pixels : ℕ × ℕ := (1120, 1120)

/-- `ImageProcessor.resize_image` (src/ImageProcessor.py:24-33): call
`thumbnail` only when a dimension exceeds the box, else return the
image untouched. -/
def resize_image (maxW maxH : ℕ) (img : PilImage) : PilImage :=
  if img.width > maxW ∨ img.height > maxH then thumbnail maxW maxH img else img

example : resize_image 1120 1120 ⟨2240, 1120⟩ = ⟨1120, 560⟩ := by
  norm_num [resize_image, thumbnail, round_aspect]
  decide
example : resize_image 1120 1120 ⟨800, 600⟩ = ⟨800, 600⟩ := rfl

/-- C1: for every HTTP response with status 200 whose body parses to a
JSON object, `handle_response` returns the value stored under the key
"response" when that key is present, and otherwise returns the whole
parsed object unchanged. -/
theorem c1_envelope_unwrap (body : String) (fields : List (String × JVal))
    (h : parseJson body = some (.jobj fields)) :
    (∀ v, dictGet fields ("response") = some v → handle_response 200 body = .ok v) ∧
    (dictGet fields ("response") = none → handle_response 200 body = .ok (.jobj fields)) := by
  constructor
  · intro v hv
    simp [handle_response, h, hv]
  · intro hv
    simp [handle_response, h, hv]

/-- C1 witness: status 200 with body `{"response": 4}` yields `4`. -/
theorem c1_envelope_unwrap_witness :
    parseJson ("\x7b\"response\": 4\x7d") = some (.jobj [("response", .jnum 4)]) ∧
    handle_response 200 "\x7b\"response\": 4\x7d" = .ok (.jnum 4) :=
  ⟨rfl, (c1_envelope_unwrap ("\x7b\"response\": 4\x7d") [("response", .jnum 4)] rfl).1 _ rfl⟩

/-- C2 (counterexample): for status 200 and body
`{"response": "[{\"a\":1}]"}`, `handle_response` returns the raw inner
string, which is not the parsed array `[{"a": 1}]` the claim promises. -/
theorem c2_nested_string_counterexample :
    handle_response 200 "\x7b\"response\": \"[\x7b\\\"a\\\":1\x7d]\"\x7d" =
      .ok (.jstr ("[\x7b\"a\":1\x7d]")) ∧
    JVal.jstr ("[\x7b\"a\":1\x7d]") ≠ JVal.jarr [.jobj [("a", .jnum 1)]] :=
  ⟨rfl, by simp⟩

/-- C2 as amended: when the 200 body parses to an object whose
"response" field holds a string, `handle_response` returns that string
verbatim; the inner JSON parse is left to the caller (`process_cats`
and `process_ticket` both call `json.loads` on the result). -/
theorem c2_nested_string_amended (body s : String) (fields : List (String × JVal))
    (h : parseJson body = some (.jobj fields))
    (hr : dictGet fields ("response") = some (.jstr s)) :
    handle_response 200 body = .ok (.jstr s) := by
  simp [handle_response, h, hr]

/-- C2 amended witness: the body from the claim returns its "response"
string unparsed. -/
theorem c2_nested_string_amended_witness :
    handle_response 200 "\x7b\"response\": \"[\x7b\\\"a\\\":1\x7d]\"\x7d" =
      .ok (.jstr ("[\x7b\"a\":1\x7d]")) :=
  c2_nested_string_amended _ _ _ rfl rfl

/-- C3: for a 200 response whose body parses to a JSON string
(double-encoded JSON), `handle_response` parses that string again and
returns the inner parsed value when the inner parse succeeds. -/
theorem c3_double_encoded (body s : String) (v : JVal)
    (h1 : parseJson body = some (.jstr s)) (h2 : parseJson s = some v) :
    handle_response 200 body = .ok v := by
  simp [handle_response, h1, h2]

/-- C3 witness: body `"{\"a\": 1}"` (a JSON-encoded string) parses to
the inner object `{"a": 1}`. -/
theorem c3_double_encoded_witness :
    parseJson ("\"\x7b\\\"a\\\": 1\x7d\"") = some (.jstr ("\x7b\"a\": 1\x7d")) ∧
    handle_response 200 "\"\x7b\\\"a\\\": 1\x7d\"" = .ok (.jobj [("a", .jnum 1)]) :=
  ⟨rfl, c3_double_encoded _ _ _ rfl rfl⟩

/-- C4: a 200 body that is not valid JSON yields the error record
`{"error": "Respuesta JSON no válida"}` (the code's "invalid JSON
response" indicator), and a 200 body holding a JSON string whose
content fails to parse yields
`{"error": "Respuesta JSON no válida (anidada como texto)"}` (the
"invalid JSON nested as text" indicator). -/
theorem c4_invalid_json (body s : String) :
    (parseJson body = none →
      handle_response 200 body = .ok (errorObj ("Respuesta JSON no válida"))) ∧
    (parseJson body = some (.jstr s) → parseJson s = none →
      handle_response 200 body =
        .ok (errorObj ("Respuesta JSON no válida (anidada como texto)"))) := by
  constructor
  · intro h
    simp [handle_response, h]
  · intro h1 h2
    simp [handle_response, h1, h2]

/-- C4 witness: body `not json` and body `"not json"` produce the two
error records. -/
theorem c4_invalid_json_witness :
    handle_response 200 "not json" = .ok (errorObj ("Respuesta JSON no válida")) ∧
    handle_response 200 "\"not json\"" =
      .ok (errorObj ("Respuesta JSON no válida (anidada como texto)")) :=
  ⟨(c4_invalid_json ("not json") "").1 rfl,
   (c4_invalid_json ("\"not json\"") "not json").2 rfl rfl⟩

/-- C5: for every non-200 status, `handle_response` returns the error
record carrying the numeric status code and the response body text. -/
theorem c5_non_200 (status : ℕ) (body : String) (h : status ≠ 200) :
    handle_response status body =
      .ok (.jobj [("error", .jnum status), ("details", .jstr body)]) := by
  simp [handle_response, h]

/-- C5 witness: status 404 with body `not found` yields
`{"error": 404, "details": "not found"}`. -/
theorem c5_non_200_witness :
    handle_response 404 "not found" =
      .ok (.jobj [("error", .jnum (404 : ℕ)), ("details", .jstr ("not found"))]) :=
  c5_non_200 404 "not found" (by norm_num)

/-- C6 (counterexample): a 200 body parsing to a top-level array makes
`handle_response` raise `AttributeError` (`list.get` does not exist and
only `json.JSONDecodeError` is caught), so it does not always return a
result value. -/
theorem c6_raises_counterexample :
    handle_response 200 "[1]" = .error ("AttributeError") := rfl

/-- C6 as amended: `handle_response` returns a result value for every
non-200 response and for every 200 body that is invalid JSON or parses
to an object or a string; the only raising case is a 200 body parsing
to a JSON value that is neither an object nor a string (null, bool,
number or array), where `.get` raises `AttributeError`. -/
theorem c6_total_amended (status : ℕ) (body : String) :
    (∃ v, handle_response status body = .ok v) ∨
    (status = 200 ∧ ∃ v, parseJson body = some v ∧
      (∀ fs, v ≠ JVal.jobj fs) ∧ (∀ s, v ≠ JVal.jstr s) ∧
      handle_response status body = .error ("AttributeError")) := by
  by_cases hs : status = 200
  · subst hs
    cases hp : parseJson body with
    | none => exact Or.inl ⟨errorObj ("Respuesta JSON no válida"), by simp [handle_response, hp]⟩
    | some v =>
      cases v with
      | jstr s =>
          cases hi : parseJson s with
          | some inner => exact Or.inl ⟨inner, by simp [handle_response, hp, hi]⟩
          | none =>
              exact Or.inl ⟨errorObj ("Respuesta JSON no válida (anidada como texto)"),
                by simp [handle_response, hp, hi]⟩
      | jobj fields =>
          exact Or.inl ⟨(dictGet fields ("response")).getD (.jobj fields),
            by simp [handle_response, hp]⟩
      | jnull =>
          refine Or.inr ⟨rfl, JVal.jnull, rfl, ?_, ?_, ?_⟩ <;> simp [handle_response, hp]
      | jbool b =>
          refine Or.inr ⟨rfl, JVal.jbool b, rfl, ?_, ?_, ?_⟩ <;> simp [handle_response, hp]
      | jnum q =>
          refine Or.inr ⟨rfl, JVal.jnum q, rfl, ?_, ?_, ?_⟩ <;> simp [handle_response, hp]
      | jarr xs =>
          refine Or.inr ⟨rfl, JVal.jarr xs, rfl, ?_, ?_, ?_⟩ <;> simp [handle_response, hp]
  · exact Or.inl ⟨.jobj [("error", .jnum status), ("details", .jstr body)],
      by simp [handle_response, hs]⟩

/-- Looking up the freshly assigned key finds the assigned value. -/
theorem dictGet_insertKey_self (fs : List (String × JVal)) (k : String) (v : JVal) :
    dictGet (insertKey fs k v) k = some v := by
  induction fs with
  | nil => simp [insertKey, dictGet]
  | cons p rest ih =>
      obtain ⟨k0, v0⟩ := p
      by_cases h : k0 == k
      · simp [insertKey, dictGet, h]
      · simp only [insertKey, h, if_neg, Bool.false_eq_true, ite_false]
        simpa [dictGet, h] using ih

/-- A successful loop iteration leaves a `price_total` key on the
mutated product. -/
theorem calc_item_price_total (p p2 : JVal) (t : ℚ) (h : calc_item p = .ok (p2, t)) :
    hasKey p2 ("price_total") = true := by
  cases p with
  | jobj fs =>
      simp only [calc_item] at h
      split at h
      · exact Except.noConfusion h
      · split at h
        · exact Except.noConfusion h
        · split at h
          · rename_i a b heq
            obtain ⟨h1, _⟩ := Prod.mk.injEq .. ▸ Except.ok.inj h
            subst h1
            simp [hasKey, dictGet_insertKey_self]
          · exact Except.noConfusion h
  | jnull => exact Except.noConfusion h
  | jbool b => exact Except.noConfusion h
  | jnum q => exact Except.noConfusion h
  | jstr s => exact Except.noConfusion h
  | jarr xs => exact Except.noConfusion h

/-- Every product returned by a successful run of the totals loop
carries a `price_total` key. -/
theorem run_items_price_total (ps : List JVal) (acc : ℚ) (ps2 : List JVal) (total : ℚ)
    (h : run_items ps acc = .ok (ps2, total)) :
    ∀ p ∈ ps2, hasKey p ("price_total") = true := by
  induction ps generalizing acc ps2 total with
  | nil =>
      simp only [run_items] at h
      obtain ⟨h1, _⟩ := Prod.mk.injEq .. ▸ Except.ok.inj h
      subst h1
      intro p hp
      exact absurd hp (List.not_mem_nil p)
  | cons q rest ih =>
      simp only [run_items] at h
      split at h
      · exact Except.noConfusion h
      · rename_i q2 hq
        split at h
        · exact Except.noConfusion h
        · rename_i r2 hr
          obtain ⟨h1, _⟩ := Prod.mk.injEq .. ▸ Except.ok.inj h
          subst h1
          intro p hp
          rcases List.mem_cons.mp hp with hp | hp
          · subst hp
            exact calc_item_price_total q _ _ hq
          · exact ih _ _ _ hr p hp

/-- C8: for the line items `[{quantity: 2, price_unit: 3.5},
{quantity: 1, price_unit: 10}]` (passed to `calculate_totals` under the
first key of its dict argument), each item gains
`price_total = quantity * price_unit` — 7.0 and 10.0 — and the grand
total is 17.0. -/
theorem c8_ticket_totals (k : String) :
    calculate_totals (.jobj [(k, .jarr
        [.jobj [("quantity", .jnum 2), ("price_unit", .jnum 3.5)],
         .jobj [("quantity", .jnum 1), ("price_unit", .jnum 10)]])]) =
      .ok (.jarr
        [.jobj [("quantity", .jnum 2), ("price_unit", .jnum 3.5), ("price_total", .jnum 7)],
         .jobj [("quantity", .jnum 1), ("price_unit", .jnum 10), ("price_total", .jnum 10)]],
        17) := by
  have hq1 : dictGet [("quantity", .jnum 2), ("price_unit", .jnum 3.5)] "quantity"
      = some (.jnum 2) := by simp [dictGet]
  have hp1 : dictGet [("quantity", .jnum 2), ("price_unit", .jnum 3.5)] "price_unit"
      = some (.jnum 3.5) := by simp [dictGet]
  have h1 : calc_item (.jobj [("quantity", .jnum 2), ("price_unit", .jnum 3.5)]) =
      .ok (.jobj [("quantity", .jnum 2), ("price_unit", .jnum 3.5),
        ("price_total", .jnum 7)], 7) := by
    simp only [calc_item]
    rw [hq1, hp1]
    norm_num [toNum, insertKey]
    rw [if_neg (by decide : ¬("quantity" : String) = "price_total"),
        if_neg (by decide : ¬("price_unit" : String) = "price_total")]
  have hq2 : dictGet [("quantity", .jnum 1), ("price_unit", .jnum 10)] "quantity"
      = some (.jnum 1) := by simp [dictGet]
  have hp2 : dictGet [("quantity", .jnum 1), ("price_unit", .jnum 10)] "price_unit"
      = some (.jnum 10) := by simp [dictGet]
  have h2 : calc_item (.jobj [("quantity", .jnum 1), ("price_unit", .jnum 10)]) =
      .ok (.jobj [("quantity", .jnum 1), ("price_unit", .jnum 10),
        ("price_total", .jnum 10)], 10) := by
    simp only [calc_item]
    rw [hq2, hp2]
    norm_num [toNum, insertKey]
    rw [if_neg (by decide : ¬("quantity" : String) = "price_total"),
        if_neg (by decide : ¬("price_unit" : String) = "price_total")]
  have hr : run_items
      [.jobj [("quantity", .jnum 2), ("price_unit", .jnum 3.5)],
       .jobj [("quantity", .jnum 1), ("price_unit", .jnum 10)]] 0 =
      .ok ([.jobj [("quantity", .jnum 2), ("price_unit", .jnum 3.5), ("price_total", .jnum 7)],
            .jobj [("quantity", .jnum 1), ("price_unit", .jnum 10), ("price_total", .jnum 10)]],
        17) := by
    simp only [run_items]
    rw [h1]
    simp only [run_items]
    rw [h2]
    norm_num
  simp [calculate_totals, hr]

/-- C9: `send_request` posts exactly the JSON object
`{model, prompt, stream, format: "json", images: [encoded image],
verbose: false}`; the images field is a one-element list.  (The model
is purely functional, so each call trivially builds the payload
afresh.) -/
theorem c9_payload_shape (model prompt encoded_image : String) (stream : Bool) :
    ∃ fields,
      build_payload model prompt stream encoded_image = .jobj fields ∧
      fields.map Prod.fst = ["model", "prompt", "stream", "format", "images", "verbose"] ∧
      dictGet fields ("model") = some (.jstr model) ∧
      dictGet fields ("prompt") = some (.jstr prompt) ∧
      dictGet fields ("stream") = some (.jbool stream) ∧
      dictGet fields ("format") = some (.jstr ("json")) ∧
      dictGet fields ("images") = some (.jarr [.jstr encoded_image]) ∧
      dictGet fields ("verbose") = some (.jbool false) ∧
      [JVal.jstr encoded_image].length = 1 := by
  refine ⟨_, rfl, rfl, ?_, ?_, ?_, ?_, ?_, ?_, rfl⟩ <;> rfl

/-- C10: `calculate_totals` needs a non-empty JSON object — a top-level
array raises `AttributeError` and an empty object raises `IndexError` —
and on a non-empty object it takes the value under the first key as the
product list, mutating every product to carry a `price_total` field. -/
theorem c10_first_key_object (k : String) (rest : List (String × JVal))
    (ps ps2 : List JVal) (total : ℚ)
    (h : run_items ps 0 = .ok (ps2, total)) :
    calculate_totals (.jarr ps) = .error ("AttributeError") ∧
    calculate_totals (.jobj []) = .error ("IndexError") ∧
    calculate_totals (.jobj ((k, .jarr ps) :: rest)) = .ok (.jarr ps2, total) ∧
    ∀ p ∈ ps2, hasKey p ("price_total") = true := by
  refine ⟨rfl, rfl, ?_, run_items_price_total ps 0 ps2 total h⟩
  simp [calculate_totals, h]

/-- C10 witness: the ticket-prompt shape (a bare array) fails, while
the same items under a key succeed. -/
theorem c10_first_key_object_witness :
    calculate_totals (.jarr [.jobj [("quantity", .jnum 2), ("price_unit", .jnum 3)]]) =
      .error ("AttributeError") ∧
    calculate_totals (.jobj []) = .error ("IndexError") ∧
    calculate_totals (.jobj [("productos",
        .jarr [.jobj [("quantity", .jnum 2), ("price_unit", .jnum 3)]])]) =
      .ok (.jarr [.jobj [("quantity", .jnum 2), ("price_unit", .jnum 3),
        ("price_total", .jnum 6)]], 6) ∧
    hasKey (.jobj [("quantity", .jnum 2), ("price_unit", .jnum 3),
        ("price_total", .jnum 6)]) "price_total" = true := by
  have h := c10_first_key_object ("productos") []
      [.jobj [("quantity", .jnum 2), ("price_unit", .jnum 3)]]
      [.jobj [("quantity", .jnum 2), ("price_unit", .jnum 3), ("price_total", .jnum 6)]]
      6 (by
        have hq : dictGet [("quantity", .jnum 2), ("price_unit", .jnum 3)] "quantity"
            = some (.jnum 2) := by simp [dictGet]
        have hp : dictGet [("quantity", .jnum 2), ("price_unit", .jnum 3)] "price_unit"
            = some (.jnum 3) := by simp [dictGet]
        have h1 : calc_item (.jobj [("quantity", .jnum 2), ("price_unit", .jnum 3)]) =
            .ok (.jobj [("quantity", .jnum 2), ("price_unit", .jnum 3),
              ("price_total", .jnum 6)], 6) := by
          simp only [calc_item]
          rw [hq, hp]
          norm_num [toNum, insertKey]
          rw [if_neg (by decide : ¬("quantity" : String) = "price_total"),
              if_neg (by decide : ¬("price_unit" : String) = "price_total")]
        simp only [run_items]
        rw [h1]
        norm_num)
  exact ⟨h.1, h.2.1, h.2.2.1, h.2.2.2 _ (List.mem_singleton.mpr rfl)⟩

/-- `round_aspect` never returns less than 1. -/
theorem round_aspect_one_le (t : ℚ) (key : ℤ → ℚ) : 1 ≤ round_aspect t key :=
  le_max_right _ _

/-- `round_aspect` respects any integer upper bound `c ≥ 1` on its
argument (both floor and ceil stay below `c`). -/
theorem round_aspect_le (t : ℚ) (key : ℤ → ℚ) (c : ℤ) (h1 : 1 ≤ c) (h2 : t ≤ (c : ℚ)) :
    round_aspect t key ≤ c := by
  have hc : ⌈t⌉ ≤ c := Int.ceil_le.mpr h2
  have hf : ⌊t⌋ ≤ c := le_trans (Int.floor_le_ceil t) hc
  unfold round_aspect
  apply max_le _ h1
  split_ifs <;> assumption

/-- `round_aspect` lands within 1 of its (positive) argument. -/
theorem round_aspect_close (t : ℚ) (key : ℤ → ℚ) (ht : 0 < t) :
    |(round_aspect t key : ℚ) - t| ≤ 1 := by
  have hfl : (⌊t⌋ : ℚ) ≤ t := Int.floor_le t
  have hfl2 : t - 1 < (⌊t⌋ : ℚ) := Int.sub_one_lt_floor t
  have hcl : t ≤ (⌈t⌉ : ℚ) := Int.le_ceil t
  have hcl2 : (⌈t⌉ : ℚ) < t + 1 := Int.ceil_lt_add_one t
  unfold round_aspect
  rcases le_or_lt 1 (if key ⌊t⌋ ≤ key ⌈t⌉ then ⌊t⌋ else ⌈t⌉) with h1 | h1
  · rw [max_eq_left h1]
    split_ifs with hk
    · rw [abs_le]
      constructor <;> [linarith; linarith]
    · rw [abs_le]
      constructor <;> [linarith; linarith]
  · rw [max_eq_right (le_of_lt h1)]
    have ht1 : t < 1 := by
      by_cases hk : key ⌊t⌋ ≤ key ⌈t⌉
      · rw [if_pos hk] at h1
        have hfz : (⌊t⌋ : ℚ) ≤ 0 := by exact_mod_cast Int.lt_add_one_iff.mp h1
        linarith
      · rw [if_neg hk] at h1
        have hcz : (⌈t⌉ : ℚ) ≤ 0 := by exact_mod_cast Int.lt_add_one_iff.mp h1
        linarith
    rw [abs_le]
    push_cast
    constructor <;> [linarith; linarith]

/-- If an integer `r ≥ 1` is within 1 of a quantity `t` whose product
with `h` equals the cross product `w * Y`, then the cross products of
the rounded pair differ by at most `h`. -/
theorem cross_mul_abs_le (r : ℤ) (t : ℚ) (w h Y : ℕ) (hh : 0 < h)
    (hr : 1 ≤ r) (hclose : |(r : ℚ) - t| ≤ 1) (ht : t * h = (w : ℚ) * Y) :
    |(r.toNat : ℤ) * h - (w : ℤ) * Y| ≤ (h : ℤ) := by
  have hhQ : (0 : ℚ) < h := by exact_mod_cast hh
  have h0 : (0 : ℤ) ≤ r := by linarith
  have htn : ((r.toNat : ℤ) : ℚ) = (r : ℚ) := by
    rw [Int.toNat_of_nonneg h0]
  have hq : |(r : ℚ) * h - (w : ℚ) * Y| ≤ (h : ℚ) := by
    calc |(r : ℚ) * h - (w : ℚ) * Y| = |((r : ℚ) - t) * h| := by rw [sub_mul, ht]
      _ = |(r : ℚ) - t| * |(h : ℚ)| := abs_mul _ _
      _ ≤ 1 * |(h : ℚ)| := mul_le_mul_of_nonneg_right hclose (abs_nonneg _)
      _ = (h : ℚ) := by rw [one_mul, abs_of_nonneg (le_of_lt hhQ)]
  have hq2 : |((r.toNat : ℤ) : ℚ) * h - (w : ℚ) * Y| ≤ (h : ℚ) := by
    rw [htn]
    exact hq
  exact_mod_cast hq2

/-- Dimension contract of `thumbnail` on an image exceeding the box in
some dimension: the result fits the box, no dimension grows, and the
cross products (result.width * height vs width * result.height) differ
by at most `max width height`, i.e. the aspect ratio is kept up to
rounding. -/
theorem thumbnail_spec (X Y : ℕ) (img : PilImage) (hX : 0 < X) (hY : 0 < Y)
    (hw : 0 < img.width) (hh : 0 < img.height)
    (hbig : X < img.width ∨ Y < img.height) :
    (thumbnail X Y img).width ≤ X ∧ (thumbnail X Y img).height ≤ Y ∧
    (thumbnail X Y img).width ≤ img.width ∧ (thumbnail X Y img).height ≤ img.height ∧
    |((thumbnail X Y img).width : ℤ) * img.height - (img.width : ℤ) * (thumbnail X Y img).height|
      ≤ ((max img.width img.height : ℕ) : ℤ) := by
  obtain ⟨w, h⟩ := img
  dsimp only at hw hh hbig ⊢
  have hXQ : (0 : ℚ) < X := by exact_mod_cast hX
  have hYQ : (0 : ℚ) < Y := by exact_mod_cast hY
  have hwQ : (0 : ℚ) < w := by exact_mod_cast hw
  have hhQ : (0 : ℚ) < h := by exact_mod_cast hh
  have hguard : ¬ ((X : ℤ) ≥ (w : ℤ) ∧ (Y : ℤ) ≥ (h : ℤ)) := by omega
  unfold thumbnail
  rw [if_neg hguard]
  by_cases hcase : (X : ℚ) / (Y : ℚ) ≥ (w : ℚ) / (h : ℚ)
  · rw [if_pos hcase]
    dsimp only
    have hcross : (w : ℚ) * Y ≤ (X : ℚ) * h := by
      rw [ge_iff_le, div_le_div_iff hhQ hYQ] at hcase
      exact hcase
    have hcrossN : w * Y ≤ X * h := by exact_mod_cast hcross
    have hYh : Y < h := by
      by_contra hle
      push_neg at hle
      have h1 : X * h ≤ X * Y := Nat.mul_le_mul_left X hle
      have h2 : w * Y ≤ X * Y := le_trans hcrossN h1
      have h3 : w ≤ X := Nat.le_of_mul_le_mul_right (by simpa [Nat.mul_comm] using h2) hY
      omega
    have ht0 : (0 : ℚ) < (Y : ℚ) * ((w : ℚ) / (h : ℚ)) := by positivity
    have htX : (Y : ℚ) * ((w : ℚ) / (h : ℚ)) ≤ (((X : ℕ) : ℤ) : ℚ) := by
      push_cast
      rw [← mul_div_assoc, div_le_iff hhQ]
      linarith [hcross]
    have htw : (Y : ℚ) * ((w : ℚ) / (h : ℚ)) ≤ (((w : ℕ) : ℤ) : ℚ) := by
      push_cast
      rw [← mul_div_assoc, div_le_iff hhQ]
      have hYle : (Y : ℚ) ≤ (h : ℚ) := by exact_mod_cast le_of_lt hYh
      nlinarith
    refine ⟨Int.toNat_le.mpr (round_aspect_le _ _ _ (by exact_mod_cast hX) htX),
      le_refl Y,
      Int.toNat_le.mpr (round_aspect_le _ _ _ (by exact_mod_cast hw) htw),
      le_of_lt hYh, ?_⟩
    have habs := cross_mul_abs_le
        (round_aspect ((Y : ℚ) * ((w : ℚ) / (h : ℚ)))
          (fun n => |(w : ℚ) / (h : ℚ) - (n : ℚ) / (Y : ℚ)|))
        ((Y : ℚ) * ((w : ℚ) / (h : ℚ))) w h Y hh
        (round_aspect_one_le _ _) (round_aspect_close _ _ ht0)
        (by field_simp; ring)
    refine le_trans habs ?_
    exact_mod_cast le_max_right w h
  · rw [if_neg hcase]
    dsimp only
    push_neg at hcase
    have hcross : (X : ℚ) * h < (w : ℚ) * Y := by
      rw [div_lt_div_iff hYQ hhQ] at hcase
      exact hcase
    have hcrossN : X * h < w * Y := by exact_mod_cast hcross
    have hXw : X < w := by
      by_contra hle
      push_neg at hle
      have h1 : w * Y ≤ X * Y := Nat.mul_le_mul_right Y hle
      have h2 : X * h < X * Y := lt_of_lt_of_le hcrossN h1
      have h3 : h < Y := Nat.lt_of_mul_lt_mul_left h2
      omega
    have ht0 : (0 : ℚ) < (X : ℚ) / ((w : ℚ) / (h : ℚ)) := by positivity
    have htY : (X : ℚ) / ((w : ℚ) / (h : ℚ)) ≤ (((Y : ℕ) : ℤ) : ℚ) := by
      push_cast
      rw [div_div_eq_mul_div, div_le_iff hwQ]
      linarith [hcross]
    have hth : (X : ℚ) / ((w : ℚ) / (h : ℚ)) ≤ (((h : ℕ) : ℤ) : ℚ) := by
      push_cast
      rw [div_div_eq_mul_div, div_le_iff hwQ]
      have hXle : (X : ℚ) ≤ (w : ℚ) := by exact_mod_cast le_of_lt hXw
      nlinarith
    refine ⟨le_refl X,
      Int.toNat_le.mpr (round_aspect_le _ _ _ (by exact_mod_cast hY) htY),
      le_of_lt hXw,
      Int.toNat_le.mpr (round_aspect_le _ _ _ (by exact_mod_cast hh) hth), ?_⟩
    have habs := cross_mul_abs_le
        (round_aspect ((X : ℚ) / ((w : ℚ) / (h : ℚ)))
          (fun n => if n = 0 then 0 else |(w : ℚ) / (h : ℚ) - (X : ℚ) / (n : ℚ)|))
        ((X : ℚ) / ((w : ℚ) / (h : ℚ))) X w h hw
        (round_aspect_one_le _ _) (round_aspect_close _ _ ht0)
        (by field_simp)
    rw [abs_sub_comm]
    rw [show ((w : ℤ) *
        ((round_aspect ((X : ℚ) / ((w : ℚ) / (h : ℚ)))
          (fun n => if n = 0 then 0 else |(w : ℚ) / (h : ℚ) - (X : ℚ) / (n : ℚ)|)).toNat : ℤ))
        = ((round_aspect ((X : ℚ) / ((w : ℚ) / (h : ℚ)))
          (fun n => if n = 0 then 0 else |(w : ℚ) / (h : ℚ) - (X : ℚ) / (n : ℚ)|)).toNat : ℤ) * w
        from mul_comm _ _]
    refine le_trans habs ?_
    exact_mod_cast le_max_left w h

/-- C7: `resize_image` leaves any image within the box untouched; an
image exceeding the box in either dimension is shrunk to fit the box
without enlarging either dimension, and the aspect ratio is preserved
up to rounding (cross products differ by at most the larger original
dimension). -/
theorem c7_resize_bounds (maxW maxH : ℕ) (img : PilImage)
    (hX : 0 < maxW) (hY : 0 < maxH) (hw : 0 < img.width) (hh : 0 < img.height) :
    (img.width ≤ maxW → img.height ≤ maxH → resize_image maxW maxH img = img) ∧
    (maxW < img.width ∨ maxH < img.height →
      (resize_image maxW maxH img).width ≤ maxW ∧
      (resize_image maxW maxH img).height ≤ maxH ∧
      (resize_image maxW maxH img).width ≤ img.width ∧
      (resize_image maxW maxH img).height ≤ img.height ∧
      |((resize_image maxW maxH img).width : ℤ) * img.height -
          (img.width : ℤ) * (resize_image maxW maxH img).height|
        ≤ ((max img.width img.height : ℕ) : ℤ)) := by
  constructor
  · intro h1 h2
    have hno : ¬ (img.width > maxW ∨ img.height > maxH) := by omega
    simp [resize_image, hno]
  · intro hbig
    have hyes : img.width > maxW ∨ img.height > maxH := by omega
    have hres : resize_image maxW maxH img = thumbnail maxW maxH img := by
      simp [resize_image, hyes]
    rw [hres]
    exact thumbnail_spec maxW maxH img hX hY hw hh (by omega)

/-- C7 witness: an 800×600 image is untouched by the default 1120×1120
box, and a 2240×1120 image is resized within the box without growth and
with bounded aspect drift. -/
theorem c7_resize_bounds_witness :
    resize_image 1120 1120 ⟨800, 600⟩ = ⟨800, 600⟩ ∧
    ((resize_image 1120 1120 ⟨2240, 1120⟩).width ≤ 1120 ∧
      (resize_image 1120 1120 ⟨2240, 1120⟩).height ≤ 1120 ∧
      (resize_image 1120 1120 ⟨2240, 1120⟩).width ≤ 2240 ∧
      (resize_image 1120 1120 ⟨2240, 1120⟩).height ≤ 1120 ∧
      |((resize_image 1120 1120 ⟨2240, 1120⟩).width : ℤ) * 1120 -
          (2240 : ℤ) * (resize_image 1120 1120 ⟨2240, 1120⟩).height| ≤ ((2240 : ℕ) : ℤ)) :=
  ⟨(c7_resize_bounds 1120 1120 ⟨800, 600⟩ (by norm_num) (by norm_num) (by norm_num)
      (by norm_num)).1 (by norm_num) (by norm_num),
    by
      have h := (c7_resize_bounds 1120 1120 ⟨2240, 1120⟩ (by norm_num) (by norm_num)
        (by norm_num) (by norm_num)).2 (Or.inl (by norm_num))
      simpa using h⟩
